import Mathlib

/-!
# gowiki: request routing and page persistence

A shallow embedding of `wiki.go`.

* A Go `string` is a Lean `String`, that is, text that is valid UTF-8; a Go
  `[]byte` is a `List UInt8`, and `[]byte(s)` is the UTF-8 encoding of `s`.
  (The regular expression only accepts ASCII letters and digits, so a path
  that is not valid UTF-8 is outside what it accepts.)
* The regular expression library, the file system, the template engine and
  the HTTP response writer are collaborators outside the repository.  The
  regular expression is embedded as a syntax tree run by a small backtracking
  matcher; the file system is a map from path to content together with a set
  of paths at which every access fails; a response is the list of calls made
  on the `http.ResponseWriter`, in order.
-/

namespace Wiki

/-! ## Routes and templates (`wiki.go` lines 12-59) -/

/-- `type WikiRoute int64`. -/
abbrev WikiRoute := Int

/-- `Edit WikiRoute = iota`. -/
def Edit : WikiRoute := 0
/-- Second constant of the `iota` block. -/
def View : WikiRoute := 1
/-- Third constant of the `iota` block. -/
def Save : WikiRoute := 2

/-- `func (wikiRoute WikiRoute) Name() string`. -/
def WikiRoute.Name (wikiRoute : WikiRoute) : String :=
  if wikiRoute = Edit then "edit"
  else if wikiRoute = View then "view"
  else if wikiRoute = Save then "save"
  else "unknown"

/-- `func (wikiRoute WikiRoute) Pattern() string`. -/
def WikiRoute.Pattern (wikiRoute : WikiRoute) : String :=
  "/" ++ WikiRoute.Name wikiRoute ++ "/"

/-- `func (wikiRoute WikiRoute) RoutePath(title string) string`. -/
def WikiRoute.RoutePath (wikiRoute : WikiRoute) (title : String) : String :=
  "/" ++ WikiRoute.Name wikiRoute ++ "/" ++ title

/-- `type WikiTemplate int64`. -/
abbrev WikiTemplate := Int

/-- `EditTemplate WikiTemplate = iota`. -/
def EditTemplate : WikiTemplate := 0
/-- Second constant of the `iota` block. -/
def ViewTemplate : WikiTemplate := 1

/-- `func (wikiTemplate WikiTemplate) Name() string`. -/
def WikiTemplate.Name (wikiTemplate : WikiTemplate) : String :=
  if wikiTemplate = EditTemplate then "edit.html"
  else if wikiTemplate = ViewTemplate then "view.html"
  else "unknown"

/-- `func (wikiTemplate WikiTemplate) FilePath() string`. -/
def WikiTemplate.FilePath (wikiTemplate : WikiTemplate) : String :=
  "./templates/" ++ WikiTemplate.Name wikiTemplate

/-! ## Regular expressions (package `regexp`, as far as `validPath` uses it) -/

/-- Syntax of the regular expressions needed for `validPath`. -/
inductive Regexp where
  /-- The empty expression, matching the empty string. -/
  | empty
  /-- A literal character. -/
  | lit (c : Char)
  /-- A character class given by inclusive ranges, such as `[a-zA-Z0-9]`. -/
  | cls (ranges : List (Char × Char))
  /-- Concatenation. -/
  | cat (a b : Regexp)
  /-- Alternation `a|b`, preferring `a`. -/
  | alt (a b : Regexp)
  /-- Greedy repetition `a+`. -/
  | plus (a : Regexp)
  /-- Capturing group number `n`. -/
  | cap (n : Nat) (a : Regexp)
  /-- Beginning of text, written `^`. -/
  | bot
  /-- End of text, written `$` (without the `m` flag). -/
  | eot

/-- A matcher thread: the position in the text, the text still to be read,
and the text captured by each group so far (latest first). -/
structure Thread where
  pos : Nat
  rest : List Char
  caps : List (Nat × List Char)
deriving DecidableEq, Repr

/-- Membership of a character in a class given by inclusive ranges. -/
def inClass (ranges : List (Char × Char)) (c : Char) : Bool :=
  ranges.any (fun r => decide (r.1.toNat ≤ c.toNat) && decide (c.toNat ≤ r.2.toNat))

/-- Consume one character satisfying `p`. -/
def Thread.step (p : Char → Bool) (t : Thread) : List Thread :=
  match t.rest with
  | [] => []
  | d :: ds => if p d then [{ t with pos := t.pos + 1, rest := ds }] else []

/-- Greedy iteration of `step`, one or more times: after each round the
matcher first tries another round (only when the round consumed input) and
then falls back to stopping.  `fuel` bounds the number of rounds. -/
def plusLoop (step : Thread → List Thread) : Nat → Thread → List Thread
  | 0, _ => []
  | fuel + 1, t =>
    (step t).flatMap (fun t1 =>
      (if t1.rest.length < t.rest.length then plusLoop step fuel t1 else []) ++ [t1])

/-- All ways in which the expression matches at the thread, in order of
preference (leftmost-first, as in Go). -/
def Regexp.run : Regexp → Thread → List Thread
  | .empty, t => [t]
  | .lit c, t => t.step (fun d => decide (d = c))
  | .cls ranges, t => t.step (inClass ranges)
  | .cat a b, t => (a.run t).flatMap (fun t1 => b.run t1)
  | .alt a b, t => a.run t ++ b.run t
  | .plus a, t => plusLoop (fun t1 => a.run t1) (t.rest.length + 1) t
  | .cap n a, t =>
    (a.run t).map (fun t1 =>
      { t1 with caps := (n, t.rest.take (t1.pos - t.pos)) :: t1.caps })
  | .bot, t => if t.pos = 0 then [t] else []
  | .eot, t => if t.rest = [] then [t] else []

/-- Number of capturing groups, `(*Regexp).NumSubexp`. -/
def Regexp.NumSubexp : Regexp → Nat
  | .empty => 0
  | .lit _ => 0
  | .cls _ => 0
  | .cat a b => a.NumSubexp + b.NumSubexp
  | .alt a b => a.NumSubexp + b.NumSubexp
  | .plus a => a.NumSubexp
  | .cap _ a => a.NumSubexp + 1
  | .bot => 0
  | .eot => 0

/-- Leftmost match: try every start position from left to right and take
the preferred match at the first position that has one. -/
def Regexp.search (re : Regexp) : Nat → List Char → Option Thread
  | pos, [] => (re.run ⟨pos, [], []⟩).head?
  | pos, c :: cs =>
    match (re.run ⟨pos, c :: cs, []⟩).head? with
    | some t => some t
    | none => re.search (pos + 1) cs

/-- Text of group `n` in a finished thread; a group that did not take part
in the match reads as the empty string. -/
def Thread.group (t : Thread) (n : Nat) : String :=
  match t.caps.lookup n with
  | some cs => String.mk cs
  | none => ""

/-- `func (re *Regexp) FindStringSubmatch(s string) []string`: the text of
the leftmost match and of its groups, `none` (Go `nil`) when nothing matches.
Group 0 is the whole match. -/
def Regexp.FindStringSubmatch (re : Regexp) (s : String) : Option (List String) :=
  match (Regexp.cap 0 re).search 0 s.toList with
  | none => none
  | some t => some ((List.range (re.NumSubexp + 1)).map t.group)

/-- A string of literal characters as a regular expression. -/
def Regexp.str : List Char → Regexp
  | [] => .empty
  | c :: cs => .cat (.lit c) (Regexp.str cs)

/-- `var validPath = regexp.MustCompile(fmt.Sprintf("^/(%s|%s|%s)/([a-zA-Z0-9]+)$",
View.Name(), Edit.Name(), Save.Name()))`; the three names hold no character
that is special in a pattern, so each stands for itself. -/
def validPath : Regexp :=
  .cat .bot
    (.cat (.lit '/')
      (.cat (.cap 1 (.alt (.str (WikiRoute.Name View).toList)
                      (.alt (.str (WikiRoute.Name Edit).toList)
                            (.str (WikiRoute.Name Save).toList))))
        (.cat (.lit '/')
          (.cat (.cap 2 (.plus (.cls [('a', 'z'), ('A', 'Z'), ('0', '9')])))
            .eot))))

/-! ## File system (package `os`) -/

/-- A Go `error`, as far as the program looks at it: the text `err.Error()`. -/
structure GoError where
  Error : String
deriving DecidableEq, Repr

/-- The file system: the content of each regular file, and for each path
the error (such as "permission denied") with which every access to it fails,
if any. -/
structure FileSystem where
  files : String → Option (List UInt8)
  fault : String → Option GoError

/-- The error of opening a file that does not exist. -/
def os.ErrNotExist (name : String) : GoError :=
  ⟨"open " ++ name ++ ": no such file or directory"⟩

/-- `func os.ReadFile(name string) ([]byte, error)`. -/
def os.ReadFile (fs : FileSystem) (name : String) : Except GoError (List UInt8) :=
  match fs.fault name with
  | some err => .error err
  | none =>
    match fs.files name with
    | some data => .ok data
    | none => .error (os.ErrNotExist name)

/-- `func os.WriteFile(name string, data []byte, perm FileMode) error`: the
file is created or truncated and then holds exactly `data`. -/
def os.WriteFile (fs : FileSystem) (name : String) (data : List UInt8) (_perm : Nat) :
    Option GoError × FileSystem :=
  match fs.fault name with
  | some err => (some err, fs)
  | none => (none, { fs with files := fun p => if p = name then some data else fs.files p })

/-! ## Pages (`wiki.go` lines 64-88) -/

/-- `type WikiPage struct`. -/
structure WikiPage where
  Title : String
  Body : List UInt8
deriving DecidableEq, Repr

/-- `func pageFilePath(title string) string`. -/
def pageFilePath (title : String) : String :=
  "./pages/" ++ title ++ ".txt"

/-- `func (p *WikiPage) filePath() string`. -/
def WikiPage.filePath (p : WikiPage) : String :=
  pageFilePath p.Title

/-- `func (p *WikiPage) save() error`. -/
def WikiPage.save (p : WikiPage) (fs : FileSystem) : Option GoError × FileSystem :=
  os.WriteFile fs p.filePath p.Body 0o600

/-- `func loadPage(title string) (*WikiPage, error)`. -/
def loadPage (fs : FileSystem) (title : String) : Except GoError WikiPage :=
  let filename := pageFilePath title
  match os.ReadFile fs filename with
  | .error err => .error err
  | .ok body => .ok { Title := title, Body := body }

/-! ## HTTP (package `net/http`) and templates (package `html/template`) -/

/-- `http.StatusFound`. -/
def http.StatusFound : Nat := 302
/-- `http.StatusNotFound`. -/
def http.StatusNotFound : Nat := 404
/-- `http.StatusInternalServerError`. -/
def http.StatusInternalServerError : Nat := 500

/-- A call that writes to the `http.ResponseWriter`, with its arguments. -/
inductive Effect where
  /-- `http.Error(w, error, code)`. -/
  | Error (error : String) (code : Nat)
  /-- `http.Redirect(w, r, url, code)`; `url` is the argument of the call, from which
  `net/http` makes the `Location` header (unchanged for a path such as `/view/Title`). -/
  | Redirect (url : String) (code : Nat)
  /-- `templates.ExecuteTemplate(w, name, data)`. -/
  | ExecuteTemplate (name : String) (data : WikiPage)
  /-- A run-time panic: index out of range. -/
  | IndexPanic
deriving DecidableEq, Repr

/-- `func http.NotFound(w ResponseWriter, r *Request)`, which is
`Error(w, "404 page not found", StatusNotFound)`. -/
def http.NotFound : Effect :=
  Effect.Error "404 page not found" http.StatusNotFound

/-- The request, as far as the program reads it: `r.URL.Path` and the
parsed form `r.Form`. -/
structure Request where
  Path : String
  Form : String → List String

/-- `func (r *Request) FormValue(key string) string`: the first value of the
field, the empty string when there is none. -/
def Request.FormValue (r : Request) (key : String) : String :=
  match r.Form key with
  | v :: _ => v
  | [] => ""

/-- The parsed template set `templates`: whether executing the named
template on a page fails, and with which error. -/
structure Template where
  ExecuteTemplate : String → WikiPage → Option GoError

/-- The conversion `[]byte(s)`. -/
def bytes (s : String) : List UInt8 :=
  s.toUTF8.data.toList

/-! ## Handlers (`wiki.go` lines 90-135) -/

/-- A handler that takes the title: `func(http.ResponseWriter, *http.Request, string)`.
It returns the calls made on the response writer and the file system it leaves. -/
abbrev TitleHandler := FileSystem → Request → String → List Effect × FileSystem

/-- `http.HandlerFunc`. -/
abbrev HandlerFunc := FileSystem → Request → List Effect × FileSystem

/-- `func renderTemplate(w http.ResponseWriter, tmpl WikiTemplate, p *WikiPage)`. -/
def renderTemplate (templates : Template) (tmpl : WikiTemplate) (p : WikiPage) : List Effect :=
  match templates.ExecuteTemplate (WikiTemplate.Name tmpl) p with
  | some err =>
    [Effect.ExecuteTemplate (WikiTemplate.Name tmpl) p,
     Effect.Error err.Error http.StatusInternalServerError]
  | none => [Effect.ExecuteTemplate (WikiTemplate.Name tmpl) p]

/-- `func makeHandler(fn func(http.ResponseWriter, *http.Request, string)) http.HandlerFunc`. -/
def makeHandler (fn : TitleHandler) : HandlerFunc := fun fs r =>
  match validPath.FindStringSubmatch r.Path with
  | none => ([http.NotFound], fs)
  | some m =>
    match m[2]? with
    | some title => fn fs r title
    | none => ([Effect.IndexPanic], fs)

/-- `func viewHandler(w http.ResponseWriter, r *http.Request, title string)`. -/
def viewHandler (templates : Template) : TitleHandler := fun fs _r title =>
  match loadPage fs title with
  | .error _ => ([Effect.Redirect (WikiRoute.RoutePath Edit title) http.StatusFound], fs)
  | .ok p => (renderTemplate templates ViewTemplate p, fs)

/-- `func editHandler(w http.ResponseWriter, r *http.Request, title string)`. -/
def editHandler (templates : Template) : TitleHandler := fun fs _r title =>
  let p : WikiPage :=
    match loadPage fs title with
    | .error _ => { Title := title, Body := [] }
    | .ok p => p
  (renderTemplate templates EditTemplate p, fs)

/-- `func saveHandler(w http.ResponseWriter, r *http.Request, title string)`. -/
def saveHandler : TitleHandler := fun fs r title =>
  let body := r.FormValue "body"
  let p : WikiPage := { Title := title, Body := bytes body }
  match p.save fs with
  | (some err, fs1) => ([Effect.Error err.Error http.StatusInternalServerError], fs1)
  | (none, fs1) => ([Effect.Redirect (WikiRoute.RoutePath View title) http.StatusFound], fs1)

/-! ## Vocabulary of the properties -/

/-- The three route names, as lists of characters. -/
def routeNames : List (List Char) :=
  [['v', 'i', 'e', 'w'], ['e', 'd', 'i', 't'], ['s', 'a', 'v', 'e']]

/-- Whether the call is a redirect. -/
def Effect.isRedirect : Effect → Bool
  | .Redirect _ _ => true
  | _ => false

/-- Whether the call executes a template. -/
def Effect.isExecuteTemplate : Effect → Bool
  | .ExecuteTemplate _ _ => true
  | _ => false

/-- A file system without files and without failing paths. -/
def emptyFS : FileSystem :=
  ⟨fun _ => none, fun _ => none⟩

/-- A file system without files on which every access to `name` fails with `err`. -/
def faultyFS (name : String) (err : GoError) : FileSystem :=
  ⟨fun _ => none, fun p => if p = name then some err else none⟩

/-- Whether the call is an `http.Error` with status 500. -/
def Effect.isServerError : Effect → Bool
  | .Error _ code => code == http.StatusInternalServerError
  | _ => false

/-- The error of opening `./pages/X.txt` without the permission to. -/
def permissionDenied : GoError :=
  ⟨"open ./pages/X.txt: permission denied"⟩

/-- A template set on which every execution succeeds. -/
def okTemplates : Template :=
  ⟨fun _ _ => none⟩

/-- A request for `path` whose form holds the field `body` with the value `body`. -/
def formRequest (path body : String) : Request :=
  ⟨path, fun key => if key = "body" then [body] else []⟩

/-- A request for `path` without form fields. -/
def plainRequest (path : String) : Request :=
  ⟨path, fun _ => []⟩

/-! ## The matcher on the shapes `validPath` is built from -/

theorem inClass_alnum (c : Char) :
    inClass [('a', 'z'), ('A', 'Z'), ('0', '9')] c = c.isAlphanum := by
  have hl : (decide ('a'.toNat ≤ c.toNat) && decide (c.toNat ≤ 'z'.toNat)) = c.isLower := rfl
  have hu : (decide ('A'.toNat ≤ c.toNat) && decide (c.toNat ≤ 'Z'.toNat)) = c.isUpper := rfl
  have hd : (decide ('0'.toNat ≤ c.toNat) && decide (c.toNat ≤ '9'.toNat)) = c.isDigit := rfl
  simp only [inClass, List.any_cons, List.any_nil, Bool.or_false, Char.isAlphanum, Char.isAlpha,
    hl, hu, hd]
  cases c.isLower <;> cases c.isUpper <;> cases c.isDigit <;> rfl

theorem mem_step (p : Char → Bool) (t t1 : Thread) :
    t1 ∈ t.step p ↔
      ∃ d ds, t.rest = d :: ds ∧ p d = true ∧ t1 = ⟨t.pos + 1, ds, t.caps⟩ := by
  unfold Thread.step
  cases h : t.rest with
  | nil => simp
  | cons d ds =>
    by_cases hp : p d = true
    · dsimp only
      rw [if_pos hp, List.mem_singleton]
      constructor
      · intro h1
        exact ⟨d, ds, rfl, hp, h1⟩
      · rintro ⟨d1, ds1, h1, -, h2⟩
        cases h1
        exact h2
    · dsimp only
      rw [if_neg hp]
      simp only [List.not_mem_nil, false_iff]
      rintro ⟨d1, ds1, h1, h2, -⟩
      cases h1
      exact hp h2

theorem mem_run_str (cs : List Char) (t t1 : Thread) :
    t1 ∈ (Regexp.str cs).run t ↔
      ∃ suf, t.rest = cs ++ suf ∧ t1 = ⟨t.pos + cs.length, suf, t.caps⟩ := by
  induction cs generalizing t with
  | nil =>
    cases t
    simp [Regexp.str, Regexp.run]
  | cons c cs ih =>
    simp only [Regexp.str, Regexp.run, List.mem_flatMap, mem_step, ih]
    constructor
    · rintro ⟨t2, ⟨d, ds, h1, h2, rfl⟩, suf, h3, rfl⟩
      simp at h2 h3
      subst h2 h3
      exact ⟨suf, by simp [h1], by simp; omega⟩
    · rintro ⟨suf, h1, rfl⟩
      exact ⟨⟨t.pos + 1, cs ++ suf, t.caps⟩, ⟨c, cs ++ suf, by simp [h1], by simp, rfl⟩,
        suf, rfl, by simp; omega⟩

theorem mem_plusLoop_step (p : Char → Bool) (fuel : Nat) (t t1 : Thread)
    (hfuel : t.rest.length < fuel) :
    t1 ∈ plusLoop (fun t2 => t2.step p) fuel t ↔
      ∃ pre suf, pre ≠ [] ∧ t.rest = pre ++ suf ∧ (∀ c ∈ pre, p c = true) ∧
        t1 = ⟨t.pos + pre.length, suf, t.caps⟩ := by
  induction fuel generalizing t with
  | zero => omega
  | succ fuel ih =>
    simp only [plusLoop, List.mem_flatMap, mem_step, List.mem_append,
      List.mem_singleton]
    constructor
    · rintro ⟨t2, ⟨d, ds, h1, h2, rfl⟩, h3 | h3⟩
      · simp only [h1, List.length_cons, Nat.lt_succ_self, if_true] at h3
        rw [ih _ (by simp only [h1, List.length_cons] at hfuel ⊢; omega)] at h3
        obtain ⟨pre, suf, -, h4, h5, rfl⟩ := h3
        simp only at h4
        refine ⟨d :: pre, suf, by simp, by simp [h1, h4], ?_, by simp; omega⟩
        intro c hc
        rcases List.mem_cons.1 hc with rfl | hc
        · exact h2
        · exact h5 c hc
      · subst h3
        exact ⟨[d], ds, by simp, by simp [h1], by simpa using h2, by simp⟩
    · rintro ⟨pre, suf, hne, h1, h2, rfl⟩
      cases pre with
      | nil => exact absurd rfl hne
      | cons d pre =>
        refine ⟨⟨t.pos + 1, pre ++ suf, t.caps⟩, ⟨d, pre ++ suf, by simp [h1], h2 d (by simp), rfl⟩, ?_⟩
        by_cases hp : pre = []
        · subst hp
          right
          simp
        · left
          simp only [h1, List.cons_append, List.length_cons, Nat.lt_succ_self, if_true]
          exact (ih _ (by simp only [h1, List.cons_append, List.length_cons] at hfuel ⊢; omega)).2
            ⟨pre, suf, hp, rfl, fun c hc => h2 c (by simp [hc]), by simp; omega⟩

theorem mem_run_lit (c : Char) (t t1 : Thread) :
    t1 ∈ (Regexp.lit c).run t ↔ ∃ ds, t.rest = c :: ds ∧ t1 = ⟨t.pos + 1, ds, t.caps⟩ := by
  simp only [Regexp.run, mem_step, decide_eq_true_eq]
  constructor
  · rintro ⟨d, ds, h1, rfl, h2⟩
    exact ⟨ds, h1, h2⟩
  · rintro ⟨ds, h1, h2⟩
    exact ⟨c, ds, h1, rfl, h2⟩

theorem mem_run_cat (a b : Regexp) (t t1 : Thread) :
    t1 ∈ (Regexp.cat a b).run t ↔ ∃ t2, t2 ∈ a.run t ∧ t1 ∈ b.run t2 := by
  simp only [Regexp.run, List.mem_flatMap]

theorem mem_run_alt (a b : Regexp) (t t1 : Thread) :
    t1 ∈ (Regexp.alt a b).run t ↔ t1 ∈ a.run t ∨ t1 ∈ b.run t := by
  simp only [Regexp.run, List.mem_append]

theorem mem_run_cap (n : Nat) (a : Regexp) (t t1 : Thread) :
    t1 ∈ (Regexp.cap n a).run t ↔
      ∃ t2, t2 ∈ a.run t ∧
        t1 = ⟨t2.pos, t2.rest, (n, t.rest.take (t2.pos - t.pos)) :: t2.caps⟩ := by
  simp only [Regexp.run, List.mem_map]
  constructor
  · rintro ⟨t2, h1, rfl⟩
    exact ⟨t2, h1, rfl⟩
  · rintro ⟨t2, h1, rfl⟩
    exact ⟨t2, h1, rfl⟩

theorem mem_run_bot (t t1 : Thread) :
    t1 ∈ Regexp.bot.run t ↔ t.pos = 0 ∧ t1 = t := by
  simp only [Regexp.run]
  by_cases h : t.pos = 0
  · simp [h]
  · simp [h]

theorem mem_run_eot (t t1 : Thread) :
    t1 ∈ Regexp.eot.run t ↔ t.rest = [] ∧ t1 = t := by
  simp only [Regexp.run]
  by_cases h : t.rest = []
  · simp [h]
  · simp [h]

theorem mem_run_plus_cls (ranges : List (Char × Char)) (t t1 : Thread) :
    t1 ∈ (Regexp.plus (Regexp.cls ranges)).run t ↔
      ∃ pre suf, pre ≠ [] ∧ t.rest = pre ++ suf ∧ (∀ c ∈ pre, inClass ranges c = true) ∧
        t1 = ⟨t.pos + pre.length, suf, t.caps⟩ := by
  simp only [Regexp.run]
  exact mem_plusLoop_step _ _ _ _ (Nat.lt_succ_self _)

theorem mem_run_names (t t1 : Thread) :
    t1 ∈ (Regexp.alt (.str (WikiRoute.Name View).toList)
            (.alt (.str (WikiRoute.Name Edit).toList)
              (.str (WikiRoute.Name Save).toList))).run t ↔
      ∃ name suf, name ∈ [['v', 'i', 'e', 'w'], ['e', 'd', 'i', 't'], ['s', 'a', 'v', 'e']] ∧
        t.rest = name ++ suf ∧ t1 = ⟨t.pos + 4, suf, t.caps⟩ := by
  have hv : (WikiRoute.Name View).toList = ['v', 'i', 'e', 'w'] := rfl
  have he : (WikiRoute.Name Edit).toList = ['e', 'd', 'i', 't'] := rfl
  have hs : (WikiRoute.Name Save).toList = ['s', 'a', 'v', 'e'] := rfl
  simp only [hv, he, hs, mem_run_alt, mem_run_str, List.length_cons, List.length_nil]
  constructor
  · rintro (⟨suf, h1, h2⟩ | ⟨suf, h1, h2⟩ | ⟨suf, h1, h2⟩)
    · exact ⟨_, suf, by simp, h1, h2⟩
    · exact ⟨_, suf, by simp, h1, h2⟩
    · exact ⟨_, suf, by simp, h1, h2⟩
  · rintro ⟨name, suf, hn, h1, h2⟩
    simp only [List.mem_cons, List.mem_singleton, List.not_mem_nil, or_false] at hn
    rcases hn with rfl | rfl | rfl
    · exact Or.inl ⟨suf, h1, h2⟩
    · exact Or.inr (Or.inl ⟨suf, h1, h2⟩)
    · exact Or.inr (Or.inr ⟨suf, h1, h2⟩)

theorem length_of_mem_names {name : List Char}
    (h : name ∈ [['v', 'i', 'e', 'w'], ['e', 'd', 'i', 't'], ['s', 'a', 'v', 'e']]) :
    name.length = 4 := by
  simp only [List.mem_cons, List.mem_singleton, List.not_mem_nil, or_false] at h
  rcases h with rfl | rfl | rfl <;> rfl

theorem mem_run_validPath (t t1 : Thread) :
    t1 ∈ validPath.run t ↔
      t.pos = 0 ∧ ∃ name s,
        name ∈ [['v', 'i', 'e', 'w'], ['e', 'd', 'i', 't'], ['s', 'a', 'v', 'e']] ∧
        s ≠ [] ∧ (∀ c ∈ s, c.isAlphanum = true) ∧ t.rest = '/' :: (name ++ '/' :: s) ∧
        t1 = ⟨s.length + 6, [], (2, s) :: (1, name) :: t.caps⟩ := by
  obtain ⟨pos, rest, caps⟩ := t
  simp only [validPath, mem_run_cat, mem_run_bot, mem_run_lit, mem_run_cap,
    mem_run_names, mem_run_plus_cls, mem_run_eot, inClass_alnum]
  constructor
  · rintro ⟨_, ⟨hpos, rfl⟩, _, ⟨ds, h1, rfl⟩, _, ⟨_, ⟨name, suf1, hn, h6, rfl⟩, rfl⟩, _,
      ⟨ds2, h2, rfl⟩, _, ⟨_, ⟨pre, suf, hne, h3, h4, rfl⟩, rfl⟩, h5, rfl⟩
    dsimp only at hpos h1 h6 h2 h3 h5 ⊢
    subst hpos h1 h6 h2 h3 h5
    have hl := length_of_mem_names hn
    refine ⟨rfl, name, pre, hn, hne, h4, by simp, ?_⟩
    have e1 : 0 + 1 + 4 - (0 + 1) = name.length := by omega
    have e2 : 0 + 1 + 4 + 1 + pre.length - (0 + 1 + 4 + 1) = pre.length := by omega
    rw [e1, e2]
    simp
    omega
  · rintro ⟨hpos, name, s, hn, hne, h4, h1, rfl⟩

    subst hpos h1
    have hl := length_of_mem_names hn
    refine ⟨_, ⟨rfl, rfl⟩, _, ⟨_, rfl, rfl⟩, _, ⟨_, ⟨name, _, hn, rfl, rfl⟩, rfl⟩, _,
      ⟨_, rfl, rfl⟩, _, ⟨_, ⟨s, [], hne, by simp, h4, rfl⟩, rfl⟩, rfl, ?_⟩
    have e1 : 0 + 1 + 4 - (0 + 1) = name.length := by omega
    have e2 : 0 + 1 + 4 + 1 + s.length - (0 + 1 + 4 + 1) = s.length := by omega
    rw [e1, e2]
    simp
    omega

theorem run_validPath_of_pos (n : Nat) (cs : List Char) (caps : List (Nat × List Char)) :
    (Regexp.cap 0 validPath).run ⟨n + 1, cs, caps⟩ = [] := by
  rw [List.eq_nil_iff_forall_not_mem]
  intro t1 h
  rw [mem_run_cap] at h
  obtain ⟨t2, h2, -⟩ := h
  rw [mem_run_validPath] at h2
  exact absurd h2.1 (Nat.succ_ne_zero n)

theorem search_validPath_of_pos (cs : List Char) (n : Nat) :
    (Regexp.cap 0 validPath).search (n + 1) cs = none := by
  induction cs generalizing n with
  | nil => simp only [Regexp.search, run_validPath_of_pos, List.head?_nil]
  | cons c cs ih => simp only [Regexp.search, run_validPath_of_pos, List.head?_nil, ih]

theorem search_zero (re : Regexp) (cs : List Char) (h : re.run ⟨0, cs, []⟩ = [])
    (h1 : ∀ n ds, re.search (n + 1) ds = none) : re.search 0 cs = none := by
  cases cs with
  | nil => simp only [Regexp.search, h, List.head?_nil]
  | cons c cs => simp only [Regexp.search, h, List.head?_nil, h1]

theorem search_zero_some (re : Regexp) (cs : List Char) (t : Thread)
    (h : (re.run ⟨0, cs, []⟩).head? = some t) : re.search 0 cs = some t := by
  cases cs with
  | nil => simp only [Regexp.search, h]
  | cons c cs => simp only [Regexp.search, h]

theorem head?_of_forall_eq {α : Type} (l : List α) (a : α) (h1 : a ∈ l) (h2 : ∀ b ∈ l, b = a) :
    l.head? = some a := by
  cases l with
  | nil => simp at h1
  | cons b l => simp [h2 b (by simp)]

/-- A path of the accepted shape has exactly one match. -/
theorem search_validPath_match (name s : List Char) (hn : name ∈ routeNames) (hne : s ≠ [])
    (hs : ∀ c ∈ s, c.isAlphanum = true) :
    (Regexp.cap 0 validPath).search 0 ('/' :: (name ++ '/' :: s)) =
      some ⟨s.length + 6, [], [(0, '/' :: (name ++ '/' :: s)), (2, s), (1, name)]⟩ := by
  apply search_zero_some
  have hl := length_of_mem_names hn
  apply head?_of_forall_eq
  · rw [mem_run_cap]
    refine ⟨_, (mem_run_validPath _ _).2 ⟨rfl, name, s, hn, hne, hs, rfl, rfl⟩, ?_⟩
    simp only [Nat.sub_zero, Thread.mk.injEq, List.cons.injEq, Prod.mk.injEq, true_and, and_true]
    rw [List.take_of_length_le]
    simp only [List.length_cons, List.length_append]
    omega
  · intro t1 h
    rw [mem_run_cap] at h
    obtain ⟨t2, h2, rfl⟩ := h
    rw [mem_run_validPath] at h2
    obtain ⟨-, name1, s1, hn1, -, -, h3, rfl⟩ := h2
    have hl1 := length_of_mem_names hn1
    simp only [List.cons.injEq, true_and] at h3
    obtain ⟨h4, h5⟩ := List.append_inj h3 (by omega)
    simp only [List.cons.injEq, true_and] at h5
    subst h4 h5
    simp only [Nat.sub_zero, Thread.mk.injEq, List.cons.injEq, Prod.mk.injEq, true_and, and_true]
    rw [List.take_of_length_le]
    simp only [List.length_cons, List.length_append]
    omega

/-- A path of any other shape has no match. -/
theorem search_validPath_none (cs : List Char)
    (h : ¬ ∃ name s, name ∈ routeNames ∧ s ≠ [] ∧ (∀ c ∈ s, c.isAlphanum = true) ∧
      cs = '/' :: (name ++ '/' :: s)) :
    (Regexp.cap 0 validPath).search 0 cs = none := by
  apply search_zero _ _ _ (fun n ds => search_validPath_of_pos ds n)
  rw [List.eq_nil_iff_forall_not_mem]
  intro t1 h1
  rw [mem_run_cap] at h1
  obtain ⟨t2, h2, -⟩ := h1
  rw [mem_run_validPath] at h2
  obtain ⟨-, name, s, hn, hne, hs, h3, -⟩ := h2
  exact h ⟨name, s, hn, hne, hs, h3⟩

theorem toList_RoutePath (r : WikiRoute) (s : String) :
    (WikiRoute.RoutePath r s).toList = '/' :: ((WikiRoute.Name r).toList ++ '/' :: s.toList) := by
  simp [WikiRoute.RoutePath, String.toList, String.data_append]

theorem name_mem_routeNames (r : WikiRoute) (hr : r = View ∨ r = Edit ∨ r = Save) :
    (WikiRoute.Name r).toList ∈ routeNames := by
  rcases hr with rfl | rfl | rfl <;> decide

theorem exists_route_of_mem_routeNames (name : List Char) (hn : name ∈ routeNames) :
    ∃ r : WikiRoute, (r = View ∨ r = Edit ∨ r = Save) ∧ (WikiRoute.Name r).toList = name := by
  simp only [routeNames, List.mem_cons, List.mem_singleton, List.not_mem_nil, or_false] at hn
  rcases hn with rfl | rfl | rfl
  · exact ⟨View, Or.inl rfl, rfl⟩
  · exact ⟨Edit, Or.inr (Or.inl rfl), rfl⟩
  · exact ⟨Save, Or.inr (Or.inr rfl), rfl⟩

/-- The validator on a path built by `RoutePath` from a title of letters and digits. -/
theorem find_validPath_RoutePath (r : WikiRoute) (s : String)
    (hr : r = View ∨ r = Edit ∨ r = Save) (hne : s ≠ "")
    (hs : ∀ c ∈ s.toList, c.isAlphanum = true) :
    validPath.FindStringSubmatch (WikiRoute.RoutePath r s) =
      some [WikiRoute.RoutePath r s, WikiRoute.Name r, s] := by
  have hne1 : s.toList ≠ [] := by
    intro h
    apply hne
    exact String.ext h
  have h := search_validPath_match _ _ (name_mem_routeNames r hr) hne1 hs
  rw [← toList_RoutePath] at h
  simp only [Regexp.FindStringSubmatch, h]
  rfl

/-- The validator on any other path. -/
theorem find_validPath_none (path : String)
    (h : ¬ ∃ (r : WikiRoute) (s : String), (r = View ∨ r = Edit ∨ r = Save) ∧ s ≠ "" ∧
      (∀ c ∈ s.toList, c.isAlphanum = true) ∧ path = WikiRoute.RoutePath r s) :
    validPath.FindStringSubmatch path = none := by
  have h1 := search_validPath_none path.toList (by
    rintro ⟨name, s, hn, hne, hs, h2⟩
    obtain ⟨r, hr, rfl⟩ := exists_route_of_mem_routeNames name hn
    refine h ⟨r, String.mk s, hr, ?_, hs, ?_⟩
    · intro h3
      apply hne
      exact congrArg String.toList h3
    · apply String.ext
      rw [← String.toList, ← String.toList, toList_RoutePath, h2]
      rfl)
  simp only [Regexp.FindStringSubmatch, h1]

/-- Every match of the validator comes from a path built by `RoutePath`. -/
theorem find_validPath_some (path : String) (m : List String)
    (h : validPath.FindStringSubmatch path = some m) :
    ∃ (r : WikiRoute) (s : String), (r = View ∨ r = Edit ∨ r = Save) ∧ s ≠ "" ∧
      (∀ c ∈ s.toList, c.isAlphanum = true) ∧ path = WikiRoute.RoutePath r s ∧
      m = [path, WikiRoute.Name r, s] := by
  by_cases h1 : ∃ (r : WikiRoute) (s : String), (r = View ∨ r = Edit ∨ r = Save) ∧ s ≠ "" ∧
      (∀ c ∈ s.toList, c.isAlphanum = true) ∧ path = WikiRoute.RoutePath r s
  · obtain ⟨r, s, hr, hne, hs, rfl⟩ := h1
    rw [find_validPath_RoutePath r s hr hne hs] at h
    exact ⟨r, s, hr, hne, hs, rfl, (Option.some.inj h).symm⟩
  · rw [find_validPath_none path h1] at h
    cases h

/-- The path `/view/bad title` is not built by `RoutePath` from a title of letters and
digits: its title holds a space. -/
theorem bad_title_not_RoutePath :
    ¬ ∃ (r : WikiRoute) (s : String), (r = View ∨ r = Edit ∨ r = Save) ∧ s ≠ "" ∧
      (∀ c ∈ s.toList, c.isAlphanum = true) ∧ "/view/bad title" = WikiRoute.RoutePath r s := by
  rintro ⟨r, s, hr, -, hs, hp⟩
  have h := congrArg String.toList hp
  rw [toList_RoutePath] at h
  rcases hr with rfl | rfl | rfl
  · have h1 : s.toList = "bad title".toList := by
      have h2 : "/view/bad title".toList = '/' :: ((WikiRoute.Name View).toList ++ '/' :: "bad title".toList) := rfl
      rw [h2] at h
      simpa using h.symm
    have h3 := hs ' ' (by rw [h1]; decide)
    exact absurd h3 (by decide)
  · have h2 : "/view/bad title".toList = '/' :: 'v' :: "iew/bad title".toList := rfl
    have h4 : (WikiRoute.Name Edit).toList = 'e' :: "dit".toList := rfl
    rw [h2, h4] at h
    simp at h
  · have h2 : "/view/bad title".toList = '/' :: 'v' :: "iew/bad title".toList := rfl
    have h4 : (WikiRoute.Name Save).toList = 's' :: "ave".toList := rfl
    rw [h2, h4] at h
    simp at h

/-- The validator on the kinds of ill-formed path the specification lists: an unrecognized
first segment, an empty title, a trailing slash, a further segment, a title with a dot, with
two dots, with a space or with a trailing newline, no leading slash, and text before the
route. -/
theorem validPath_rejects_examples :
    validPath.FindStringSubmatch "/delete/Page" = none ∧
    validPath.FindStringSubmatch "/view/" = none ∧
    validPath.FindStringSubmatch "/view/Page/" = none ∧
    validPath.FindStringSubmatch "/view/Page/more" = none ∧
    validPath.FindStringSubmatch "/view/a.b" = none ∧
    validPath.FindStringSubmatch "/view/.." = none ∧
    validPath.FindStringSubmatch "/view/../../etc/passwd" = none ∧
    validPath.FindStringSubmatch "/view/bad title" = none ∧
    validPath.FindStringSubmatch "/view/Page\n" = none ∧
    validPath.FindStringSubmatch "view/Page" = none ∧
    validPath.FindStringSubmatch "/x/view/Page" = none ∧
    validPath.FindStringSubmatch "/" = none ∧
    validPath.FindStringSubmatch "" = none := by
  decide

/-- C1: for every route among view, edit and save and every non-empty title `s` of ASCII
letters and digits, `validPath` matches `RoutePath s` with the title `s` as its second
group, and the handler made by `makeHandler fn` is `fn` called with the title `s`: it
responds with what `fn` responds and adds no 404. -/
theorem C1_valid_path_accepted (r : WikiRoute) (s : String)
    (hr : r = View ∨ r = Edit ∨ r = Save) (hne : s ≠ "")
    (hs : ∀ c ∈ s.toList, c.isAlphanum = true) :
    WikiRoute.RoutePath r s = "/" ++ WikiRoute.Name r ++ "/" ++ s ∧
    validPath.FindStringSubmatch (WikiRoute.RoutePath r s) =
      some [WikiRoute.RoutePath r s, WikiRoute.Name r, s] ∧
    ∀ (fn : TitleHandler) (fs : FileSystem) (form : String → List String),
      makeHandler fn fs ⟨WikiRoute.RoutePath r s, form⟩ =
        fn fs ⟨WikiRoute.RoutePath r s, form⟩ s := by
  refine ⟨rfl, find_validPath_RoutePath r s hr hne hs, ?_⟩
  intro fn fs form
  simp only [makeHandler, find_validPath_RoutePath r s hr hne hs]
  rfl

/-- C1 at the route `Save` and the title `Page1`. -/
theorem C1_valid_path_accepted_witness :
    validPath.FindStringSubmatch (WikiRoute.RoutePath Save "Page1") =
      some ["/save/Page1", "save", "Page1"] ∧
    makeHandler saveHandler emptyFS ⟨"/save/Page1", fun _ => []⟩ =
      saveHandler emptyFS ⟨"/save/Page1", fun _ => []⟩ "Page1" :=
  ⟨(C1_valid_path_accepted Save "Page1" (by decide) (by decide) (by decide)).2.1,
   (C1_valid_path_accepted Save "Page1" (by decide) (by decide) (by decide)).2.2 _ _ _⟩

/-- C2: for every request path that is not `RoutePath r s` for a route `r` among view, edit
and save and a non-empty title `s` of ASCII letters and digits, `validPath` does not
match, and the handler made by `makeHandler fn` responds with exactly the 404 of
`http.NotFound`, whatever `fn` is, and leaves the file system as it was. -/
theorem C2_invalid_path_rejected (path : String)
    (h : ¬ ∃ (r : WikiRoute) (s : String), (r = View ∨ r = Edit ∨ r = Save) ∧ s ≠ "" ∧
      (∀ c ∈ s.toList, c.isAlphanum = true) ∧ path = WikiRoute.RoutePath r s) :
    validPath.FindStringSubmatch path = none ∧
    ∀ (fn : TitleHandler) (fs : FileSystem) (form : String → List String),
      makeHandler fn fs ⟨path, form⟩ = ([Effect.Error "404 page not found" 404], fs) := by
  refine ⟨find_validPath_none path h, ?_⟩
  intro fn fs form
  simp only [makeHandler, find_validPath_none path h]
  rfl

/-- C2 at the path `/view/bad title`. -/
theorem C2_invalid_path_rejected_witness :
    validPath.FindStringSubmatch "/view/bad title" = none ∧
    makeHandler (viewHandler okTemplates) emptyFS (plainRequest "/view/bad title") =
      ([Effect.Error "404 page not found" 404], emptyFS) :=
  ⟨(C2_invalid_path_rejected "/view/bad title" bad_title_not_RoutePath).1,
   (C2_invalid_path_rejected "/view/bad title" bad_title_not_RoutePath).2 _ _ _⟩

/-! ## The page store -/

theorem save_of_fault_none (fs : FileSystem) (p : WikiPage)
    (h : fs.fault (pageFilePath p.Title) = none) :
    p.save fs =
      (none, ⟨fun q => if q = pageFilePath p.Title then some p.Body else fs.files q, fs.fault⟩) := by
  simp only [WikiPage.save, WikiPage.filePath, os.WriteFile, h]

theorem save_of_fault_some (fs : FileSystem) (p : WikiPage) (err : GoError)
    (h : fs.fault (pageFilePath p.Title) = some err) :
    p.save fs = (some err, fs) := by
  simp only [WikiPage.save, WikiPage.filePath, os.WriteFile, h]

theorem fault_none_of_save (fs : FileSystem) (p : WikiPage) (h : (p.save fs).1 = none) :
    fs.fault (pageFilePath p.Title) = none := by
  cases hf : fs.fault (pageFilePath p.Title) with
  | none => rfl
  | some err =>
    rw [save_of_fault_some fs p err hf] at h
    cases h

theorem pageFilePath_injective (T1 T2 : String) (h : pageFilePath T1 = pageFilePath T2) :
    T1 = T2 := by
  have h1 := congrArg String.data h
  simp only [pageFilePath, String.data_append] at h1
  exact String.ext (List.append_cancel_left (List.append_cancel_right h1))

theorem loadPage_save (fs : FileSystem) (T : String) (B : List UInt8)
    (hw : (WikiPage.save ⟨T, B⟩ fs).1 = none) :
    loadPage (WikiPage.save ⟨T, B⟩ fs).2 T = .ok ⟨T, B⟩ := by
  have hf := fault_none_of_save fs ⟨T, B⟩ hw
  rw [save_of_fault_none fs ⟨T, B⟩ hf]
  simp only [loadPage, os.ReadFile] at hf ⊢
  simp only [hf, if_true]

/-- C3: when the write of `save` succeeds, saving the page with title `T` and body `B` and
then loading `T` succeeds and returns the page with title `T` and body exactly `B`, for
every `T` and every `B`, the empty one included. -/
theorem C3_save_load_round_trip (fs : FileSystem) (T : String) (B : List UInt8)
    (hw : (WikiPage.save ⟨T, B⟩ fs).1 = none) :
    loadPage (WikiPage.save ⟨T, B⟩ fs).2 T = .ok { Title := T, Body := B } :=
  loadPage_save fs T B hw

/-- C3 on the empty store, at the title `Welcome`, with the empty body and with a body of two bytes. -/
theorem C3_save_load_round_trip_witness :
    (WikiPage.save ⟨"Welcome", []⟩ emptyFS).1 = none ∧
    loadPage (WikiPage.save ⟨"Welcome", []⟩ emptyFS).2 "Welcome" = .ok ⟨"Welcome", []⟩ ∧
    loadPage (WikiPage.save ⟨"Welcome", [104, 105]⟩ emptyFS).2 "Welcome" =
      .ok ⟨"Welcome", [104, 105]⟩ :=
  ⟨rfl, C3_save_load_round_trip emptyFS "Welcome" [] rfl,
    C3_save_load_round_trip emptyFS "Welcome" [104, 105] rfl⟩

/-- C4: saving `(T, B1)` and then `(T, B2)` leaves the same store as saving `(T, B2)` alone;
when that second write succeeds, loading `T` yields exactly `B2`; and saving the same
`(T, B)` twice leaves the same store as saving it once. -/
theorem C4_save_overwrites (fs : FileSystem) (T : String) (B1 B2 : List UInt8) :
    (WikiPage.save ⟨T, B2⟩ (WikiPage.save ⟨T, B1⟩ fs).2).2 = (WikiPage.save ⟨T, B2⟩ fs).2 ∧
    ((WikiPage.save ⟨T, B2⟩ (WikiPage.save ⟨T, B1⟩ fs).2).1 = none →
      loadPage (WikiPage.save ⟨T, B2⟩ (WikiPage.save ⟨T, B1⟩ fs).2).2 T = .ok ⟨T, B2⟩) ∧
    (WikiPage.save ⟨T, B1⟩ (WikiPage.save ⟨T, B1⟩ fs).2).2 = (WikiPage.save ⟨T, B1⟩ fs).2 := by
  have key : ∀ B B0 : List UInt8,
      (WikiPage.save ⟨T, B⟩ (WikiPage.save ⟨T, B0⟩ fs).2).2 = (WikiPage.save ⟨T, B⟩ fs).2 := by
    intro B B0
    cases hf : fs.fault (pageFilePath T) with
    | some err =>
      rw [save_of_fault_some fs ⟨T, B0⟩ err hf, save_of_fault_some fs ⟨T, B⟩ err hf]
    | none =>
      simp only [WikiPage.save, WikiPage.filePath, os.WriteFile, hf, FileSystem.mk.injEq,
        and_true]
      funext q
      by_cases hq : q = pageFilePath T
      · simp only [hq, if_true]
      · simp only [hq, if_false]
  refine ⟨key B2 B1, ?_, key B1 B1⟩
  intro hw
  exact loadPage_save _ T B2 hw

/-- C4 on the empty store, at the title `A` and the bodies `[1]` and `[2]`. -/
theorem C4_save_overwrites_witness :
    (WikiPage.save ⟨"A", [2]⟩ (WikiPage.save ⟨"A", [1]⟩ emptyFS).2).1 = none ∧
    loadPage (WikiPage.save ⟨"A", [2]⟩ (WikiPage.save ⟨"A", [1]⟩ emptyFS).2).2 "A" =
      .ok ⟨"A", [2]⟩ :=
  ⟨rfl, (C4_save_overwrites emptyFS "A" [1] [2]).2.1 rfl⟩

theorem readFile_save_of_ne (fs : FileSystem) (p : WikiPage) (name : String)
    (h : name ≠ pageFilePath p.Title) :
    os.ReadFile (p.save fs).2 name = os.ReadFile fs name := by
  cases hf : fs.fault (pageFilePath p.Title) with
  | some err => rw [save_of_fault_some fs p err hf]
  | none =>
    rw [save_of_fault_none fs p hf]
    simp only [os.ReadFile, h, if_false]

/-- C10: the storage path of a title `T` is `./pages/T.txt`; two titles with the same
storage path are equal; and saving a page under one title changes neither the stored
content nor the loaded page of any other title. -/
theorem C10_title_mapping_injective (T1 T2 : String) :
    pageFilePath T1 = "./pages/" ++ T1 ++ ".txt" ∧
    (pageFilePath T1 = pageFilePath T2 → T1 = T2) ∧
    (T1 ≠ T2 → ∀ (fs : FileSystem) (B : List UInt8),
      os.ReadFile (WikiPage.save ⟨T1, B⟩ fs).2 (pageFilePath T2) =
        os.ReadFile fs (pageFilePath T2) ∧
      loadPage (WikiPage.save ⟨T1, B⟩ fs).2 T2 = loadPage fs T2) := by
  refine ⟨rfl, pageFilePath_injective T1 T2, ?_⟩
  intro hne fs B
  have h : os.ReadFile (WikiPage.save ⟨T1, B⟩ fs).2 (pageFilePath T2) =
      os.ReadFile fs (pageFilePath T2) :=
    readFile_save_of_ne fs ⟨T1, B⟩ _ (fun h => hne (pageFilePath_injective T1 T2 h.symm))
  refine ⟨h, ?_⟩
  simp only [loadPage, h]

/-- C10 at the titles `Home` and `Welcome`. -/
theorem C10_title_mapping_injective_witness :
    pageFilePath "Home" = pageFilePath "Home" ∧ "Home" = "Home" ∧
    "Home" ≠ "Welcome" ∧
    loadPage (WikiPage.save ⟨"Home", [1]⟩ (WikiPage.save ⟨"Welcome", [2]⟩ emptyFS).2).2 "Welcome" =
      loadPage (WikiPage.save ⟨"Welcome", [2]⟩ emptyFS).2 "Welcome" :=
  ⟨rfl, (C10_title_mapping_injective "Home" "Home").2.1 rfl, by decide,
    ((C10_title_mapping_injective "Home" "Welcome").2.2 (by decide) _ [1]).2⟩

/-! ## The handlers -/

theorem RoutePath_View (T : String) : WikiRoute.RoutePath View T = "/view/" ++ T := by
  apply String.ext
  simp only [WikiRoute.RoutePath, String.data_append]
  rfl

theorem RoutePath_Edit (T : String) : WikiRoute.RoutePath Edit T = "/edit/" ++ T := by
  apply String.ext
  simp only [WikiRoute.RoutePath, String.data_append]
  rfl

theorem saveHandler_of_save_none (fs : FileSystem) (r : Request) (T : String)
    (h : (WikiPage.save ⟨T, bytes (r.FormValue "body")⟩ fs).1 = none) :
    saveHandler fs r T =
      ([Effect.Redirect (WikiRoute.RoutePath View T) http.StatusFound],
        (WikiPage.save ⟨T, bytes (r.FormValue "body")⟩ fs).2) := by
  cases hs : WikiPage.save ⟨T, bytes (r.FormValue "body")⟩ fs with
  | mk e fs1 =>
    rw [hs] at h
    cases e with
    | none => simp only [saveHandler, hs]
    | some err => cases h

theorem saveHandler_of_save_some (fs : FileSystem) (r : Request) (T : String) (err : GoError)
    (h : (WikiPage.save ⟨T, bytes (r.FormValue "body")⟩ fs).1 = some err) :
    saveHandler fs r T =
      ([Effect.Error err.Error http.StatusInternalServerError],
        (WikiPage.save ⟨T, bytes (r.FormValue "body")⟩ fs).2) := by
  cases hs : WikiPage.save ⟨T, bytes (r.FormValue "body")⟩ fs with
  | mk e fs1 =>
    rw [hs] at h
    cases e with
    | none => cases h
    | some err1 =>
      cases h
      simp only [saveHandler, hs]

theorem viewHandler_of_load_error (templates : Template) (fs : FileSystem) (r : Request)
    (T : String) (err : GoError) (h : loadPage fs T = .error err) :
    viewHandler templates fs r T =
      ([Effect.Redirect (WikiRoute.RoutePath Edit T) http.StatusFound], fs) := by
  simp only [viewHandler, h]

theorem viewHandler_of_load_ok (templates : Template) (fs : FileSystem) (r : Request)
    (T : String) (p : WikiPage) (h : loadPage fs T = .ok p) :
    viewHandler templates fs r T = (renderTemplate templates ViewTemplate p, fs) := by
  simp only [viewHandler, h]

theorem editHandler_of_load_error (templates : Template) (fs : FileSystem) (r : Request)
    (T : String) (err : GoError) (h : loadPage fs T = .error err) :
    editHandler templates fs r T = (renderTemplate templates EditTemplate ⟨T, []⟩, fs) := by
  simp only [editHandler, h]

theorem editHandler_of_load_ok (templates : Template) (fs : FileSystem) (r : Request)
    (T : String) (p : WikiPage) (h : loadPage fs T = .ok p) :
    editHandler templates fs r T = (renderTemplate templates EditTemplate p, fs) := by
  simp only [editHandler, h]

/-- What `renderTemplate` does: one execution of the named template on the page, followed
by nothing or by one `http.Error` with status 500; no redirect. -/
theorem renderTemplate_shape (templates : Template) (tmpl : WikiTemplate) (p : WikiPage) :
    (renderTemplate templates tmpl p = [Effect.ExecuteTemplate (WikiTemplate.Name tmpl) p] ∨
      ∃ err, renderTemplate templates tmpl p =
        [Effect.ExecuteTemplate (WikiTemplate.Name tmpl) p, Effect.Error err 500]) ∧
    (renderTemplate templates tmpl p).filter Effect.isExecuteTemplate =
      [Effect.ExecuteTemplate (WikiTemplate.Name tmpl) p] ∧
    ∀ e ∈ renderTemplate templates tmpl p, e.isRedirect = false := by
  unfold renderTemplate
  cases templates.ExecuteTemplate (WikiTemplate.Name tmpl) p with
  | none =>
    refine ⟨Or.inl rfl, rfl, ?_⟩
    intro e he
    simp only [List.mem_singleton] at he
    subst he
    rfl
  | some err =>
    refine ⟨Or.inr ⟨err.Error, rfl⟩, rfl, ?_⟩
    intro e he
    simp only [List.mem_cons, List.mem_singleton, List.not_mem_nil, or_false] at he
    rcases he with rfl | rfl <;> rfl

theorem loadPage_ok_iff (fs : FileSystem) (T : String) (p : WikiPage) :
    loadPage fs T = .ok p ↔ p.Title = T ∧ os.ReadFile fs (pageFilePath T) = .ok p.Body := by
  cases h : os.ReadFile fs (pageFilePath T) with
  | error err => simp [loadPage, h]
  | ok body =>
    obtain ⟨t, b⟩ := p
    simp only [loadPage, h, Except.ok.injEq, WikiPage.mk.injEq]
    constructor
    · rintro ⟨rfl, rfl⟩
      exact ⟨rfl, rfl⟩
    · rintro ⟨rfl, rfl⟩
      exact ⟨rfl, rfl⟩

theorem loadPage_error_of_no_file (fs : FileSystem) (T : String)
    (h : fs.files (pageFilePath T) = none) : ∃ err, loadPage fs T = .error err := by
  cases hf : fs.fault (pageFilePath T) with
  | some err => exact ⟨err, by simp only [loadPage, os.ReadFile, hf]⟩
  | none => exact ⟨os.ErrNotExist (pageFilePath T), by simp only [loadPage, os.ReadFile, hf, h]⟩

/-- The conversion `[]byte(s)` yields the UTF-8 encoding of `s`: every character is
replaced by its encoding, and nothing else is added. -/
theorem bytes_eq_utf8 (s : String) : bytes s = s.toList.flatMap String.utf8EncodeChar :=
  rfl

/-- On ASCII text the conversion `[]byte(s)` yields one byte for each character, its code. -/
theorem bytes_of_ascii (s : String) (h : ∀ c ∈ s.toList, c.toNat < 128) :
    bytes s = s.toList.map (fun c => c.toNat.toUInt8) := by
  rw [bytes_eq_utf8]
  generalize s.toList = cs at h
  induction cs with
  | nil => rfl
  | cons c cs ih =>
    have hc : c.val ≤ 0x7f := by
      have h1 := h c (by simp)
      rw [UInt32.le_def]
      show c.val.toNat ≤ 127
      have h2 : c.toNat = c.val.toNat := rfl
      omega
    have he : String.utf8EncodeChar c = [c.toNat.toUInt8] := by
      simp only [String.utf8EncodeChar, hc, if_true]
      rfl
    rw [List.flatMap_cons, he, List.map_cons, ih (fun d hd => h d (by simp [hd]))]
    rfl

/-- C6: `saveHandler` saves the page made of the title and of the bytes of the form field
`body` (its UTF-8 encoding, as `[]byte(body)` gives it), which is the empty body when the
field is absent.  When the save succeeds, the response is one redirect with status 302 to
`View.RoutePath T`, which is `/view/T`, and the stored content of `T` is exactly that
body.  When the save fails, the response is one `http.Error` with status 500 carrying the
error text, and no redirect. -/
theorem C6_saveHandler (fs : FileSystem) (r : Request) (T : String) :
    (r.Form "body" = [] → r.FormValue "body" = "") ∧
    (∀ v vs, r.Form "body" = v :: vs → r.FormValue "body" = v) ∧
    bytes (r.FormValue "body") = (r.FormValue "body").toUTF8.data.toList ∧
    (saveHandler fs r T).2 =
      (WikiPage.save ⟨T, (r.FormValue "body").toUTF8.data.toList⟩ fs).2 ∧
    ((WikiPage.save ⟨T, (r.FormValue "body").toUTF8.data.toList⟩ fs).1 = none →
      (saveHandler fs r T).1 = [Effect.Redirect (WikiRoute.RoutePath View T) 302] ∧
      WikiRoute.RoutePath View T = "/view/" ++ T ∧
      (saveHandler fs r T).2.files (pageFilePath T) =
        some (r.FormValue "body").toUTF8.data.toList ∧
      os.ReadFile (saveHandler fs r T).2 (pageFilePath T) =
        .ok (r.FormValue "body").toUTF8.data.toList ∧
      loadPage (saveHandler fs r T).2 T = .ok ⟨T, (r.FormValue "body").toUTF8.data.toList⟩ ∧
      (r.Form "body" = [] → (saveHandler fs r T).2.files (pageFilePath T) = some [])) ∧
    (∀ err, (WikiPage.save ⟨T, (r.FormValue "body").toUTF8.data.toList⟩ fs).1 = some err →
      (saveHandler fs r T).1 = [Effect.Error err.Error 500] ∧
      ∀ e ∈ (saveHandler fs r T).1, e.isRedirect = false) := by
  have hb : bytes (r.FormValue "body") = (r.FormValue "body").toUTF8.data.toList := rfl
  have habsent : r.Form "body" = [] → r.FormValue "body" = "" := by
    intro h
    simp only [Request.FormValue, h]
  rw [← hb]
  refine ⟨habsent, ?_, rfl, ?_, ?_, ?_⟩
  · intro v vs h
    simp only [Request.FormValue, h]
  · cases h : (WikiPage.save ⟨T, bytes (r.FormValue "body")⟩ fs).1 with
    | none => rw [saveHandler_of_save_none fs r T h]
    | some err => rw [saveHandler_of_save_some fs r T err h]
  · intro h
    have hl := loadPage_save fs T (bytes (r.FormValue "body")) h
    have hf := fault_none_of_save fs ⟨T, bytes (r.FormValue "body")⟩ h
    have hfiles : (WikiPage.save ⟨T, bytes (r.FormValue "body")⟩ fs).2.files (pageFilePath T) =
        some (bytes (r.FormValue "body")) := by
      rw [save_of_fault_none fs ⟨T, bytes (r.FormValue "body")⟩ hf]
      simp only [if_true]
    rw [saveHandler_of_save_none fs r T h]
    refine ⟨rfl, RoutePath_View T, hfiles, ((loadPage_ok_iff _ T _).1 hl).2, hl, ?_⟩
    intro ha
    rw [hfiles, habsent ha]
    rfl
  · intro err h
    rw [saveHandler_of_save_some fs r T err h]
    refine ⟨rfl, ?_⟩
    intro e he
    simp only [List.mem_singleton] at he
    subst he
    rfl

/-- C6 on the empty store, where the save succeeds (with the field `body` absent, and with
`body=hi`, whose bytes are 104 and 105), and on a store whose page file cannot be opened,
where it fails. -/
theorem C6_saveHandler_witness :
    (plainRequest "/save/Welcome").Form "body" = [] ∧
    (plainRequest "/save/Welcome").FormValue "body" = "" ∧
    (saveHandler emptyFS (plainRequest "/save/Welcome") "Welcome").2.files
      "./pages/Welcome.txt" = some [] ∧
    (formRequest "/save/Welcome" "hi").Form "body" = ["hi"] ∧
    (formRequest "/save/Welcome" "hi").FormValue "body" = "hi" ∧
    bytes "hi" = [104, 105] ∧
    (WikiPage.save ⟨"Welcome", [104, 105]⟩ emptyFS).1 = none ∧
    (saveHandler emptyFS (formRequest "/save/Welcome" "hi") "Welcome").1 =
      [Effect.Redirect "/view/Welcome" 302] ∧
    (saveHandler emptyFS (formRequest "/save/Welcome" "hi") "Welcome").2.files
      "./pages/Welcome.txt" = some [104, 105] ∧
    os.ReadFile (saveHandler emptyFS (formRequest "/save/Welcome" "hi") "Welcome").2
      "./pages/Welcome.txt" = .ok [104, 105] ∧
    loadPage (saveHandler emptyFS (formRequest "/save/Welcome" "hi") "Welcome").2 "Welcome" =
      .ok ⟨"Welcome", [104, 105]⟩ ∧
    (WikiPage.save ⟨"X", []⟩ (faultyFS "./pages/X.txt" permissionDenied)).1 =
      some permissionDenied ∧
    (saveHandler (faultyFS "./pages/X.txt" permissionDenied) (plainRequest "/save/X") "X").1 =
      [Effect.Error "open ./pages/X.txt: permission denied" 500] :=
  ⟨rfl,
   (C6_saveHandler emptyFS (plainRequest "/save/Welcome") "Welcome").1 rfl,
   ((C6_saveHandler emptyFS (plainRequest "/save/Welcome") "Welcome").2.2.2.2.1
      (by decide)).2.2.2.2.2 rfl,
   rfl,
   (C6_saveHandler emptyFS (formRequest "/save/Welcome" "hi") "Welcome").2.1 "hi" [] rfl,
   (C6_saveHandler emptyFS (formRequest "/save/Welcome" "hi") "Welcome").2.2.1,
   by decide,
   ((C6_saveHandler emptyFS (formRequest "/save/Welcome" "hi") "Welcome").2.2.2.2.1
      (by decide)).1,
   ((C6_saveHandler emptyFS (formRequest "/save/Welcome" "hi") "Welcome").2.2.2.2.1
      (by decide)).2.2.1,
   ((C6_saveHandler emptyFS (formRequest "/save/Welcome" "hi") "Welcome").2.2.2.2.1
      (by decide)).2.2.2.1,
   ((C6_saveHandler emptyFS (formRequest "/save/Welcome" "hi") "Welcome").2.2.2.2.1
      (by decide)).2.2.2.2.1,
   by decide,
   ((C6_saveHandler (faultyFS "./pages/X.txt" permissionDenied) (plainRequest "/save/X")
      "X").2.2.2.2.2 permissionDenied (by decide)).1⟩

/-- C7: when `loadPage T` fails, as it does when no file is stored for `T`, `viewHandler`
responds with one redirect with status 302 to `Edit.RoutePath T`, which is `/edit/T`,
and executes no template.  Otherwise the loaded page has title `T` and the stored bytes
as body, and `viewHandler` executes the template `view.html` on it, once, and issues no
redirect.  The store is left as it was. -/
theorem C7_viewHandler (templates : Template) (fs : FileSystem) (r : Request) (T : String) :
    (fs.files (pageFilePath T) = none → ∃ err, loadPage fs T = .error err) ∧
    (∀ err, loadPage fs T = .error err →
      viewHandler templates fs r T = ([Effect.Redirect (WikiRoute.RoutePath Edit T) 302], fs) ∧
      WikiRoute.RoutePath Edit T = "/edit/" ++ T ∧
      ∀ e ∈ (viewHandler templates fs r T).1, e.isExecuteTemplate = false) ∧
    (∀ p, loadPage fs T = .ok p →
      p.Title = T ∧ os.ReadFile fs (pageFilePath T) = .ok p.Body ∧
      viewHandler templates fs r T = (renderTemplate templates ViewTemplate p, fs) ∧
      (viewHandler templates fs r T).1.filter Effect.isExecuteTemplate =
        [Effect.ExecuteTemplate "view.html" p] ∧
      ∀ e ∈ (viewHandler templates fs r T).1, e.isRedirect = false) := by
  refine ⟨loadPage_error_of_no_file fs T, ?_, ?_⟩
  · intro err h
    rw [viewHandler_of_load_error templates fs r T err h]
    refine ⟨rfl, RoutePath_Edit T, ?_⟩
    intro e he
    simp only [List.mem_singleton] at he
    subst he
    rfl
  · intro p h
    rw [viewHandler_of_load_ok templates fs r T p h]
    have hr := renderTemplate_shape templates ViewTemplate p
    exact ⟨((loadPage_ok_iff fs T p).1 h).1, ((loadPage_ok_iff fs T p).1 h).2, rfl, hr.2.1,
      hr.2.2⟩

/-- C7 on the empty store, where the load fails, and on a store that holds the page. -/
theorem C7_viewHandler_witness :
    emptyFS.files (pageFilePath "Welcome") = none ∧
    (∃ err, loadPage emptyFS "Welcome" = .error err) ∧
    loadPage emptyFS "Welcome" = .error (os.ErrNotExist "./pages/Welcome.txt") ∧
    viewHandler okTemplates emptyFS (plainRequest "/view/Welcome") "Welcome" =
      ([Effect.Redirect (WikiRoute.RoutePath Edit "Welcome") 302], emptyFS) ∧
    loadPage (WikiPage.save ⟨"Welcome", [104, 105]⟩ emptyFS).2 "Welcome" =
      .ok ⟨"Welcome", [104, 105]⟩ ∧
    (viewHandler okTemplates (WikiPage.save ⟨"Welcome", [104, 105]⟩ emptyFS).2
      (plainRequest "/view/Welcome") "Welcome").1.filter Effect.isExecuteTemplate =
      [Effect.ExecuteTemplate "view.html" ⟨"Welcome", [104, 105]⟩] :=
  ⟨rfl,
   (C7_viewHandler okTemplates emptyFS (plainRequest "/view/Welcome") "Welcome").1 rfl,
   rfl,
   ((C7_viewHandler okTemplates emptyFS (plainRequest "/view/Welcome") "Welcome").2.1
      (os.ErrNotExist "./pages/Welcome.txt") rfl).1,
   rfl,
   ((C7_viewHandler okTemplates (WikiPage.save ⟨"Welcome", [104, 105]⟩ emptyFS).2
      (plainRequest "/view/Welcome") "Welcome").2.2 ⟨"Welcome", [104, 105]⟩ rfl).2.2.2.1⟩

/-- C8: `editHandler` executes the template `edit.html` exactly once and never redirects:
on the loaded page when `loadPage T` succeeds, and on the page with title `T` and empty
body when it fails.  The store is left as it was. -/
theorem C8_editHandler (templates : Template) (fs : FileSystem) (r : Request) (T : String) :
    (editHandler templates fs r T).2 = fs ∧
    (∀ e ∈ (editHandler templates fs r T).1, e.isRedirect = false) ∧
    (∀ p, loadPage fs T = .ok p →
      (editHandler templates fs r T).1 = renderTemplate templates EditTemplate p ∧
      (editHandler templates fs r T).1.filter Effect.isExecuteTemplate =
        [Effect.ExecuteTemplate "edit.html" p]) ∧
    (∀ err, loadPage fs T = .error err →
      (editHandler templates fs r T).1 = renderTemplate templates EditTemplate ⟨T, []⟩ ∧
      (editHandler templates fs r T).1.filter Effect.isExecuteTemplate =
        [Effect.ExecuteTemplate "edit.html" ⟨T, []⟩]) := by
  have hok : ∀ p, loadPage fs T = .ok p →
      editHandler templates fs r T = (renderTemplate templates EditTemplate p, fs) :=
    fun p h => editHandler_of_load_ok templates fs r T p h
  have herr : ∀ err, loadPage fs T = .error err →
      editHandler templates fs r T = (renderTemplate templates EditTemplate ⟨T, []⟩, fs) :=
    fun err h => editHandler_of_load_error templates fs r T err h
  refine ⟨?_, ?_, ?_, ?_⟩
  · cases h : loadPage fs T with
    | ok p => rw [hok p h]
    | error err => rw [herr err h]
  · cases h : loadPage fs T with
    | ok p =>
      rw [hok p h]
      exact (renderTemplate_shape templates EditTemplate p).2.2
    | error err =>
      rw [herr err h]
      exact (renderTemplate_shape templates EditTemplate ⟨T, []⟩).2.2
  · intro p h
    rw [hok p h]
    exact ⟨rfl, (renderTemplate_shape templates EditTemplate p).2.1⟩
  · intro err h
    rw [herr err h]
    exact ⟨rfl, (renderTemplate_shape templates EditTemplate ⟨T, []⟩).2.1⟩

/-- C8 on the empty store, where the load fails, and on a store that holds the page. -/
theorem C8_editHandler_witness :
    loadPage emptyFS "Welcome" = .error (os.ErrNotExist "./pages/Welcome.txt") ∧
    (editHandler okTemplates emptyFS (plainRequest "/edit/Welcome") "Welcome").1 =
      [Effect.ExecuteTemplate "edit.html" ⟨"Welcome", []⟩] ∧
    loadPage (WikiPage.save ⟨"Welcome", [104, 105]⟩ emptyFS).2 "Welcome" =
      .ok ⟨"Welcome", [104, 105]⟩ ∧
    (editHandler okTemplates (WikiPage.save ⟨"Welcome", [104, 105]⟩ emptyFS).2
      (plainRequest "/edit/Welcome") "Welcome").1 =
      [Effect.ExecuteTemplate "edit.html" ⟨"Welcome", [104, 105]⟩] :=
  ⟨rfl,
   ((C8_editHandler okTemplates emptyFS (plainRequest "/edit/Welcome") "Welcome").2.2.2
      (os.ErrNotExist "./pages/Welcome.txt") rfl).1,
   rfl,
   ((C8_editHandler okTemplates (WikiPage.save ⟨"Welcome", [104, 105]⟩ emptyFS).2
      (plainRequest "/edit/Welcome") "Welcome").2.2.1 ⟨"Welcome", [104, 105]⟩ rfl).1⟩

theorem loadPage_error_of_readFile (fs : FileSystem) (T : String) (err : GoError)
    (h : os.ReadFile fs (pageFilePath T) = .error err) : loadPage fs T = .error err := by
  simp only [loadPage, h]

/-- C5, as the claim states it, fails: with `./pages/X.txt` unreadable for lack of
permission (the read fails, and not because the file is absent), the request `/view/X` is
answered by a redirect with status 302 to `/edit/X` and the request `/edit/X` by the edit
template on an empty page; neither response holds an `http.Error` with status 500. -/
theorem C5_read_failure_not_surfaced :
    os.ReadFile (faultyFS "./pages/X.txt" permissionDenied) (pageFilePath "X") =
      .error permissionDenied ∧
    permissionDenied ≠ os.ErrNotExist (pageFilePath "X") ∧
    (makeHandler (viewHandler okTemplates) (faultyFS "./pages/X.txt" permissionDenied)
      (plainRequest "/view/X")).1 = [Effect.Redirect "/edit/X" 302] ∧
    (makeHandler (editHandler okTemplates) (faultyFS "./pages/X.txt" permissionDenied)
      (plainRequest "/edit/X")).1 = [Effect.ExecuteTemplate "edit.html" ⟨"X", []⟩] ∧
    (makeHandler (viewHandler okTemplates) (faultyFS "./pages/X.txt" permissionDenied)
      (plainRequest "/view/X")).1.any Effect.isServerError = false ∧
    (makeHandler (editHandler okTemplates) (faultyFS "./pages/X.txt" permissionDenied)
      (plainRequest "/edit/X")).1.any Effect.isServerError = false :=
  ⟨rfl, by decide, by decide, by decide, by decide, by decide⟩

/-- C5, amended: a write of the page store that fails is surfaced by `saveHandler` as one
`http.Error` with status 500 carrying the raw error text.  A read that fails, for whatever
reason, is not surfaced as such: `viewHandler` responds with one redirect with status 302
to the edit route, and `editHandler` renders the edit template on the page with that title
and an empty body (only the template's own failure adds an error to it). -/
theorem C5_storage_failure (templates : Template) (fs : FileSystem) (r : Request)
    (T : String) (err : GoError) :
    ((WikiPage.save ⟨T, bytes (r.FormValue "body")⟩ fs).1 = some err →
      (saveHandler fs r T).1 = [Effect.Error err.Error 500]) ∧
    (os.ReadFile fs (pageFilePath T) = .error err →
      (viewHandler templates fs r T).1 = [Effect.Redirect (WikiRoute.RoutePath Edit T) 302] ∧
      (editHandler templates fs r T).1 = renderTemplate templates EditTemplate ⟨T, []⟩ ∧
      (templates.ExecuteTemplate "edit.html" ⟨T, []⟩ = none →
        (editHandler templates fs r T).1 = [Effect.ExecuteTemplate "edit.html" ⟨T, []⟩])) := by
  refine ⟨?_, ?_⟩
  · intro h
    rw [saveHandler_of_save_some fs r T err h]
    rfl
  · intro h
    have hl := loadPage_error_of_readFile fs T err h
    rw [viewHandler_of_load_error templates fs r T err hl,
      editHandler_of_load_error templates fs r T err hl]
    refine ⟨rfl, rfl, ?_⟩
    intro ht
    have hn : WikiTemplate.Name EditTemplate = "edit.html" := rfl
    simp only [renderTemplate, hn, ht]

/-- C5, amended, on a store whose page file cannot be opened. -/
theorem C5_storage_failure_witness :
    (WikiPage.save ⟨"X", bytes ((plainRequest "/save/X").FormValue "body")⟩
      (faultyFS "./pages/X.txt" permissionDenied)).1 = some permissionDenied ∧
    (saveHandler (faultyFS "./pages/X.txt" permissionDenied) (plainRequest "/save/X") "X").1 =
      [Effect.Error "open ./pages/X.txt: permission denied" 500] ∧
    os.ReadFile (faultyFS "./pages/X.txt" permissionDenied) (pageFilePath "X") =
      .error permissionDenied ∧
    (viewHandler okTemplates (faultyFS "./pages/X.txt" permissionDenied)
      (plainRequest "/view/X") "X").1 = [Effect.Redirect (WikiRoute.RoutePath Edit "X") 302] ∧
    okTemplates.ExecuteTemplate "edit.html" ⟨"X", []⟩ = none ∧
    (editHandler okTemplates (faultyFS "./pages/X.txt" permissionDenied)
      (plainRequest "/edit/X") "X").1 = [Effect.ExecuteTemplate "edit.html" ⟨"X", []⟩] :=
  ⟨by decide,
   (C5_storage_failure okTemplates (faultyFS "./pages/X.txt" permissionDenied)
      (plainRequest "/save/X") "X" permissionDenied).1 (by decide),
   rfl,
   ((C5_storage_failure okTemplates (faultyFS "./pages/X.txt" permissionDenied)
      (plainRequest "/view/X") "X" permissionDenied).2 rfl).1,
   rfl,
   ((C5_storage_failure okTemplates (faultyFS "./pages/X.txt" permissionDenied)
      (plainRequest "/edit/X") "X" permissionDenied).2 rfl).2.2 rfl⟩

/-! ## No path traversal -/

theorem splitOn_pageFilePath (title : String) (h : '/' ∉ title.toList) :
    (pageFilePath title).toList.splitOn '/' =
      [".".toList, "pages".toList, (title ++ ".txt").toList] := by
  have h1 : (pageFilePath title).toList =
      ['/'].intercalate [".".toList, "pages".toList, (title ++ ".txt").toList] := by
    simp only [pageFilePath, String.toList, String.data_append, List.intercalate,
      List.intersperse, List.flatten, List.append_nil]
    rfl
  rw [h1]
  apply List.splitOn_intercalate
  · intro l hl
    simp only [List.mem_cons, List.mem_singleton, List.not_mem_nil, or_false] at hl
    rcases hl with rfl | rfl | rfl
    · decide
    · decide
    · simp only [String.toList, String.data_append, List.mem_append, not_or]
      exact ⟨h, by decide⟩
  · simp

/-- C9: for every request path that `validPath` accepts, the title handed to the wrapped
handler is the second group; it holds no `/` and no `.`; its storage path is
`./pages/` followed by the title and `.txt`; and that path, split at `/`, is exactly the
three segments `.`, `pages` and the file name, none of which is `..`. -/
theorem C9_no_path_traversal (path : String) (m : List String)
    (h : validPath.FindStringSubmatch path = some m) :
    ∃ title, m[2]? = some title ∧
      (∀ (fn : TitleHandler) (fs : FileSystem) (form : String → List String),
        makeHandler fn fs ⟨path, form⟩ = fn fs ⟨path, form⟩ title) ∧
      '/' ∉ title.toList ∧ '.' ∉ title.toList ∧
      pageFilePath title = "./pages/" ++ title ++ ".txt" ∧
      (pageFilePath title).toList.splitOn '/' =
        [".".toList, "pages".toList, (title ++ ".txt").toList] ∧
      "..".toList ∉ (pageFilePath title).toList.splitOn '/' := by
  obtain ⟨r, s, -, -, hs, -, rfl⟩ := find_validPath_some path m h
  have hslash : '/' ∉ s.toList := fun hc => absurd (hs '/' hc) (by decide)
  have hdot : '.' ∉ s.toList := fun hc => absurd (hs '.' hc) (by decide)
  refine ⟨s, rfl, ?_, hslash, hdot, rfl, splitOn_pageFilePath s hslash, ?_⟩
  · intro fn fs form
    simp only [makeHandler, h]
    rfl
  · rw [splitOn_pageFilePath s hslash]
    simp only [List.mem_cons, List.mem_singleton, List.not_mem_nil, or_false, not_or]
    refine ⟨by decide, by decide, ?_⟩
    intro h2
    have h3 : 't' ∈ "..".toList := by
      rw [h2]
      simp [String.toList, String.data_append]
    exact absurd h3 (by decide)

/-- C9 at the path `/view/Welcome`. -/
theorem C9_no_path_traversal_witness :
    validPath.FindStringSubmatch "/view/Welcome" = some ["/view/Welcome", "view", "Welcome"] ∧
    ∃ title, ["/view/Welcome", "view", "Welcome"][2]? = some title ∧
      (∀ (fn : TitleHandler) (fs : FileSystem) (form : String → List String),
        makeHandler fn fs ⟨"/view/Welcome", form⟩ = fn fs ⟨"/view/Welcome", form⟩ title) ∧
      '/' ∉ title.toList ∧ '.' ∉ title.toList ∧
      pageFilePath title = "./pages/" ++ title ++ ".txt" ∧
      (pageFilePath title).toList.splitOn '/' =
        [".".toList, "pages".toList, (title ++ ".txt").toList] ∧
      "..".toList ∉ (pageFilePath title).toList.splitOn '/' :=
  ⟨by decide, C9_no_path_traversal "/view/Welcome" ["/view/Welcome", "view", "Welcome"]
    (by decide)⟩

/-! ## The scenario of the specification -/

/-- The scenario on the empty store: `/view/Welcome` redirects to `/edit/Welcome`; then
`/save/Welcome` with the form body `hello world` stores exactly these bytes and redirects
to `/view/Welcome`; then `/view/Welcome` executes the view template on the stored page;
and `/view/bad title` is answered with 404. -/
theorem scenario_welcome :
    makeHandler (viewHandler okTemplates) emptyFS (plainRequest "/view/Welcome") =
      ([Effect.Redirect "/edit/Welcome" 302], emptyFS) ∧
    (makeHandler saveHandler emptyFS (formRequest "/save/Welcome" "hello world")).1 =
      [Effect.Redirect "/view/Welcome" 302] ∧
    (makeHandler saveHandler emptyFS (formRequest "/save/Welcome" "hello world")).2.files
      "./pages/Welcome.txt" = some [104, 101, 108, 108, 111, 32, 119, 111, 114, 108, 100] ∧
    (makeHandler (viewHandler okTemplates)
      (makeHandler saveHandler emptyFS (formRequest "/save/Welcome" "hello world")).2
      (plainRequest "/view/Welcome")).1 =
      [Effect.ExecuteTemplate "view.html"
        ⟨"Welcome", [104, 101, 108, 108, 111, 32, 119, 111, 114, 108, 100]⟩] ∧
    (makeHandler (viewHandler okTemplates) emptyFS (plainRequest "/view/bad title")).1 =
      [Effect.Error "404 page not found" 404] :=
  ⟨rfl, by decide, by decide, by decide, by decide⟩

end Wiki
